import Mathlib

/-!
Shallow embedding of src/src/bat/benchmark.py (the BenchBench "Benchmark"
class): the canonical long-form Dataset Table, name canonicalization,
ingestion and validation, per-scenario score normalization, aggregation
(mean / mean win-rate), and extension.

Conventions of the embedding:
* pandas cells carrying a score are modelled by `Cell` (a rational number,
  a missing value NaN, or a leftover string when numeric coercion failed);
* a row of the Dataset Table is the record `Row`; the pandas frame is `DF`,
  which also records its actual column-name list `cols` (the schema checks
  of the code inspect `df.columns`, and the duplicate-collapse changes it);
* Python string methods `str.replace`, `str.strip`, `str.lower` and
  `"x".split("/")[-1]` are implemented on `List Char` with structural
  recursion so that every definition evaluates by `decide` / `rfl`;
  `lower` is modelled on ASCII letters (the repository's names are ASCII);
* exceptions are modelled by `Except Err` / `Option Err`; a Python method
  that mutates `self` and can raise returns the mutated-so-far state paired
  with `Option Err` (an exception propagates but mutations made before the
  raise persist, as in Python);
* the two asset files read by `get_nice_benchmark_name` and
  `lower_os_better_for_source` are not part of the source tree; following
  the specification they are abstract lookup data passed in as parameters.
-/

/-- A pandas cell holding a score: a (finite) numeric value, a missing
value (NaN), or an un-coerced string. -/
inductive Cell where
  | num (q : ℚ)
  | na
  | str (s : String)
deriving DecidableEq, Repr

/-- One record of the Dataset Table: model, scenario, score, source and
the list of scenario names an aggregate row was computed from. -/
structure Row where
  model : String
  scenario : String
  score : Cell
  source : String
  aggragated_from : List String
deriving DecidableEq, Repr

/-- A pandas DataFrame as the code sees the Dataset Table: the list of its
column names (the schema the validators inspect) and its rows.  A `Row`
field whose column name is absent from `cols` is dead data. -/
structure DF where
  cols : List String
  rows : List Row
deriving DecidableEq, Repr

/-- A raw input table (wide- or long-form) before ingestion: column names
plus rows of cells aligned with the columns. -/
structure RawDF where
  cols : List String
  rows : List (List Cell)
deriving DecidableEq, Repr

/-- The mutable state of a `Benchmark` object: the `is_empty` flag and the
optional Dataset Table (`self.df`, `None` before first assignment). -/
structure BState where
  is_empty : Bool
  df : Option DF
deriving DecidableEq, Repr

/-- Python exceptions raised by the code. -/
inductive Err where
  | assertionError (msg : String)
  | valueError (msg : String)
  | ioError (msg : String)
  | typeError (msg : String)
  | unboundLocalError (name : String)
deriving DecidableEq, Repr

deriving instance DecidableEq for Except

/-! ## Python string primitives -/

/-- One pass of Python `str.replace`: replaces every (leftmost,
non-overlapping) occurrence of `pat` by `rep`; `fuel` bounds recursion and
is always instantiated with the length of the subject. -/
def replaceFuel : Nat → List Char → List Char → List Char → List Char
  | 0, s, _, _ => s
  | fuel + 1, s, pat, rep =>
    if pat ≠ [] ∧ pat.isPrefixOf s then
      rep ++ replaceFuel fuel (s.drop pat.length) pat rep
    else
      match s with
      | [] => []
      | c :: rest => c :: replaceFuel fuel rest pat rep

/-- Python `s.replace(pat, rep)` (all occurrences, left to right). -/
def pyReplace (s pat rep : String) : String :=
  ⟨replaceFuel s.data.length s.data pat.data rep.data⟩

/-- Python whitespace for `str.strip`. -/
def isPySpace (c : Char) : Bool :=
  c = ' ' || c = '\t' || c = '\n' || c = '\r'

/-- Python `s.strip()`. -/
def pyStrip (s : String) : String :=
  ⟨((s.data.dropWhile isPySpace).reverse.dropWhile isPySpace).reverse⟩

/-- Python `s.lower()` (ASCII letters; the repository's labels are ASCII). -/
def pyLower (s : String) : String :=
  ⟨s.data.map Char.toLower⟩

/-- Python `s.split("/")[-1]`: the suffix after the last slash. -/
def pySplitLastSlash (s : String) : String :=
  ⟨(s.data.reverse.takeWhile (fun c => c ≠ '/')).reverse⟩

/-! ## Name Normalizer -/

/-- `get_nice_benchmark_name`: return the prettified name when the lookup
table (the JSON asset, abstracted as `lookup`) has the key, else the name
itself. -/
def get_nice_benchmark_name (lookup : String → Option String)
    (bench_name : String) : String :=
  (lookup bench_name).getD bench_name

/-- `lower_os_better_for_source`: whether the (optional) source name is in
the lower-is-better registry (the text asset, abstracted as the list of
its lines). -/
def lower_os_better_for_source (lowerList : List String)
    (source_name : Option String) : Bool :=
  match source_name with
  | some s => (lowerList.map (fun src => src ++ ".csv")).contains s
  | none => false

/-- `Benchmark.standardize_scenario_name`: the ordered replacement chain
of the source, finished by the display-name lookup. -/
def standardize_scenario_name (lookup : String → Option String)
    (name : String) : String :=
  get_nice_benchmark_name lookup
    (pyReplace (pyReplace (pyReplace (pyReplace (pyReplace (pyReplace
      (pyReplace (pyReplace (pyReplace (pyReplace (pyReplace (pyReplace
      (pyReplace (pyReplace (pyReplace (pyReplace
        (pyLower (pyStrip name))
        "   " "-") "  " "-") " " "-") "(" "") ")" "")
        "gsm-8k" "gsm8k") "open-book" "open") "closed-book" "closed")
        "agi-eval" "agieval") "alpacaeval2-wr" "alpacav2")
        "alpacav2,-len-adj" "alpacaeval2-lc") "hswag" "hellaswag")
        "obqa" "openbookqa") "winogrande" "winog") "winog" "winogrande")
        "-" "_")

/-- `Benchmark.standardize_model_name`: the ordered replacement chain of
the source, including the `split("/")[-1]` step. -/
def standardize_model_name (name : String) : String :=
  pyReplace (pyReplace (pyReplace (pyReplace (pyReplace (pyReplace
    (pySplitLastSlash
      (pyReplace (pyReplace (pyReplace (pyReplace (pyReplace (pyReplace
       (pyReplace (pyReplace (pyReplace (pyReplace (pyReplace (pyReplace
        (pyLower (pyStrip name))
        "   " "-") "  " "-") " " "-") "(" "") ")" "")
        "β" "beta") "command-r+" "command-r-plus")
        "dbrx-inst" "dbrx-instruct") "-hf" "") "-" "_")
        "llama_3" "llama3") "ul2" "flan-ul2"))
    "meta_" "") "." "_") "v01" "v0_1") "v02" "v0_2") "v03" "v0_3")
    "wml/" ""

/-! ## Generic list helpers (pandas `unique`, `sorted`, groupby key order) -/

/-- Helper for `uniqueKeep`: first-occurrence deduplication, tracking the
elements already seen. -/
def uniqueAux {α : Type} [DecidableEq α] : List α → List α → List α
  | _, [] => []
  | seen, x :: xs =>
    if x ∈ seen then uniqueAux seen xs else x :: uniqueAux (x :: seen) xs

/-- pandas `Series.unique()`: distinct values in order of first appearance. -/
def uniqueKeep {α : Type} [DecidableEq α] (l : List α) : List α :=
  uniqueAux [] l

/-- Strict code-point lexicographic order on character lists (how Python
compares strings). -/
def charListLt : List Char → List Char → Bool
  | [], [] => false
  | [], _ :: _ => true
  | _ :: _, [] => false
  | a :: as, b :: bs =>
    a.toNat < b.toNat || (a.toNat = b.toNat && charListLt as bs)

/-- Strict string order by code points. -/
def strLt (a b : String) : Bool := charListLt a.data b.data

/-- Non-strict string order by code points. -/
def strLe (a b : String) : Bool := strLt a b || a = b

/-- Insertion step of the string sort used to model Python `sorted` and the
ascending group-key order of pandas `groupby`. -/
def insertStr (x : String) : List String → List String
  | [] => [x]
  | y :: ys => if strLe x y then x :: y :: ys else y :: insertStr x ys

/-- Python `sorted` on strings (code-point lexicographic order). -/
def sortStr : List String → List String
  | [] => []
  | x :: xs => insertStr x (sortStr xs)

/-- Lexicographic order on (model, scenario, source) triples, the ascending
key order of pandas `groupby` over the three columns. -/
def tripleLe (a b : String × String × String) : Bool :=
  strLt a.1 b.1 || (a.1 = b.1 && (strLt a.2.1 b.2.1 ||
    (a.2.1 = b.2.1 && strLe a.2.2 b.2.2)))

/-- Insertion step of the triple sort. -/
def insertTriple (x : String × String × String) :
    List (String × String × String) → List (String × String × String)
  | [] => [x]
  | y :: ys => if tripleLe x y then x :: y :: ys else y :: insertTriple x ys

/-- Sort triples in the ascending key order of pandas `groupby`. -/
def sortTriples :
    List (String × String × String) → List (String × String × String)
  | [] => []
  | x :: xs => insertTriple x (sortTriples xs)

/-! ## Cell helpers -/

/-- Digits of a decimal literal to a natural number. -/
def digitsToNat : List Char → Option Nat
  | [] => none
  | cs => cs.foldl (fun acc c =>
      acc.bind (fun a => if c.isDigit then some (10 * a + (c.toNat - 48)) else none))
      (some 0)

/-- Parse the decimal numeric literals Python `float` accepts in benchmark
CSVs (optional sign, integer part, optional fractional part). -/
def parseRat (s : String) : Option ℚ :=
  let core : List Char → Option ℚ := fun cs =>
    match cs.splitOn '.' with
    | [intPart] => (digitsToNat intPart).map (fun n => (n : ℚ))
    | [intPart, fracPart] =>
      match digitsToNat (intPart ++ fracPart), fracPart.length with
      | some n, k => some ((n : ℚ) / ((10 : ℚ) ^ k))
      | none, _ => none
    | _ => none
  match s.data with
  | '-' :: rest => (core rest).map (fun q => -q)
  | cs => core cs

/-- Numeric coercion of a single cell for `astype(float)`: numbers and NaN
pass through, strings must parse as a decimal literal. -/
def cellConvert : Cell → Option Cell
  | .num q => some (.num q)
  | .na => some .na
  | .str s => (parseRat s).map .num

/-- Attempt to convert every cell of the score column. -/
def convertAll : List Cell → Option (List Cell)
  | [] => some []
  | c :: cs =>
    match cellConvert c, convertAll cs with
    | some c2, some cs2 => some (c2 :: cs2)
    | _, _ => none

/-- pandas `astype(float, errors="ignore")` on the score column: convert
the whole column if every cell converts, otherwise leave it unchanged. -/
def astypeFloatIgnore (cells : List Cell) : List Cell :=
  match convertAll cells with
  | some l => l
  | none => cells

/-- `df.replace("-", np.nan)` on a score cell. -/
def replaceDash (c : Cell) : Cell :=
  if c = .str "-" then .na else c

/-- String content of a cell (model / scenario / source columns hold
strings in practice). -/
def cellToStr : Cell → String
  | .str s => s
  | .num q => toString q
  | .na => ""

/-- Numeric content of a cell; aggregation only runs on tables whose score
column passed the numeric validation, where every cell is `num`. -/
def cellQ : Cell → ℚ
  | .num q => q
  | _ => 0

/-- The column is of a numeric pandas dtype: no string survived coercion
(a NaN-bearing float column is numeric). -/
def isNumericCol (rows : List Row) : Bool :=
  rows.all (fun r => match r.score with | .str _ => false | _ => true)

/-! ## Ingestion -/

/-- Index of a column name in the header (pandas column lookup). -/
def colIdx (cols : List String) (c : String) : Nat :=
  cols.indexOf c

/-- `pd.melt(df, id_vars=["model"], var_name="scenario", value_name="score")`:
one record per (model, scenario-column, cell), stacked column by column as
pandas does. -/
def meltRaw (r : RawDF) : List Row :=
  r.cols.tail.flatMap (fun v =>
    r.rows.map (fun cs =>
      ⟨cellToStr (cs.headD .na), v, cs.getD (colIdx r.cols v) .na, "", []⟩))

/-- View a raw table as rows of the Dataset Table: melt a wide table, or
read the named columns of a long table (a column absent from the header
yields dead default data, caught by the schema validation). -/
def rawToDF (r : RawDF) : DF :=
  if "scenario" ∈ r.cols then
    ⟨r.cols, r.rows.map (fun cs =>
      ⟨cellToStr (cs.getD (colIdx r.cols "model") .na),
       cellToStr (cs.getD (colIdx r.cols "scenario") .na),
       cs.getD (colIdx r.cols "score") .na,
       cellToStr (cs.getD (colIdx r.cols "source") .na), []⟩)⟩
  else
    ⟨["model", "scenario", "score"], meltRaw r⟩

/-- Score cells of the raw long-form score column (for the pre-formatting
numeric check). -/
def rawScoreNumeric (r : RawDF) : Bool :=
  r.rows.all (fun cs =>
    match cs.getD (colIdx r.cols "score") .na with
    | .str _ => false
    | _ => true)

/-- `Benchmark.validate_df_pre_formatting`: the read-only checks run on the
raw table before any formatting. -/
def validate_df_pre_formatting (r : RawDF) : Option Err :=
  if "Unnamed: 0" ∈ r.cols then
    some (.valueError "DataFrame should not contain Unnamed column")
  else if "model" ∉ r.cols then
    some (.valueError "DataFrame must contain a model column")
  else if "scenario" ∉ r.cols ∧ r.cols.length < 2 then
    some (.valueError "DataFrame must contain at least model and one scenario column or scenario and score column")
  else if "score" ∈ r.cols ∧ ¬ rawScoreNumeric r then
    some (.valueError "score must be numeric")
  else none

/-! ## Post-formatting validation and duplicate collapse -/

/-- `Series.min()` of a non-empty numeric list. -/
def listMin : List ℚ → ℚ
  | [] => 0
  | x :: xs => xs.foldl min x

/-- `Series.max()` of a non-empty numeric list. -/
def listMax : List ℚ → ℚ
  | [] => 0
  | x :: xs => xs.foldl max x

/-- The required canonical column set. -/
def requiredCols : List String :=
  ["model", "scenario", "score", "source", "aggragated_from"]

/-- The (model, scenario, source) key of a record. -/
def tripleOf (r : Row) : String × String × String :=
  (r.model, r.scenario, r.source)

/-- Number of records sharing a given (model, scenario, source) key. -/
def tripleCount (rows : List Row) (t : String × String × String) : Nat :=
  rows.countP (fun r => tripleOf r = t)

/-- `df.duplicated(subset=["model","scenario","source"], keep=False)` is
non-empty: some key occurs at least twice. -/
def hasDuplicates (rows : List Row) : Bool :=
  rows.any (fun r => 2 ≤ tripleCount rows (tripleOf r))

/-- The numeric scores of the records with a given key. -/
def tripleScores (rows : List Row) (t : String × String × String) : List ℚ :=
  (rows.filter (fun r => tripleOf r = t)).filterMap
    (fun r => match r.score with | .num q => some q | _ => none)

/-- The string scores of the records with a given key (a wide table with
unparseable cells melts into an object-dtype score column whose values
reach the collapse as strings). -/
def tripleStrScores (rows : List Row) (t : String × String × String) :
    List String :=
  (rows.filter (fun r => tripleOf r = t)).filterMap
    (fun r => match r.score with | .str s => some s | _ => none)

/-- Python `max` of a non-empty string list (code-point comparison, the
ordering pandas uses on an object column of strings). -/
def strMaxList : List String → String
  | [] => ""
  | s :: ss => ss.foldl (fun a b => if strLt a b then b else a) s

/-- Some (model, scenario, source) group holds both a numeric and a string
score: on such a group pandas raises TypeError inside
`groupby(...).max()` (strings and floats do not compare). -/
def hasMixedGroup (rows : List Row) : Bool :=
  rows.any (fun r =>
    !(tripleScores rows (tripleOf r)).isEmpty &&
    !(tripleStrScores rows (tripleOf r)).isEmpty)

/-- pandas `groupby(...)["score"].max()` for one group, NaN skipped: the
numeric maximum of an all-numeric group, or the string maximum of an
all-string group (object-dtype comparison); an all-NaN group gives NaN.
A group holding both kinds raises TypeError inside the collapse, which
`validate_dataframe_post_formatting` surfaces before this value is used,
so the mixed arm here is dead code there. -/
def maxScoreCell (rows : List Row) (t : String × String × String) : Cell :=
  match tripleScores rows t, tripleStrScores rows t with
  | [], [] => .na
  | qs, [] => .num (listMax qs)
  | [], ss => .str (strMaxList ss)
  | _, _ => .na

/-- `groupby(["model","scenario","source"], as_index=False)["score"].max()`:
one row per distinct key, keys in ascending order, score collapsed to the
group maximum; every other column (notably aggragated_from) is dropped. -/
def collapseDuplicates (rows : List Row) : List Row :=
  (sortTriples (uniqueKeep (rows.map tripleOf))).map
    (fun t => ⟨t.1, t.2.1, maxScoreCell rows t, t.2.2, []⟩)

/-- `Benchmark.validate_dataframe_post_formatting`: drop the row-index
artifact column, check the exact column set, collapse duplicate
(model, scenario, source) rows to the max score with a warning (the
returned Bool), and check the score column is numeric.  Raises by
returning `Except.error`: the groupby maximum raises TypeError on a group
mixing string and numeric scores, and the final dtype check raises
ValueError when a string survives (collapsed or not). -/
def validate_dataframe_post_formatting (d : DF) : Except Err (DF × Bool) :=
  let cols1 := d.cols.filter (fun c => c ≠ "Unnamed: 0")
  let relevant := cols1.filter (fun c => c ≠ "tag")
  if sortStr relevant ≠ sortStr requiredCols then
    .error (.valueError "DataFrame must contain the required columns")
  else if hasDuplicates d.rows then
    if hasMixedGroup d.rows then
      .error (.typeError
        "max not supported between instances of str and float")
    else
      let d2 := DF.mk ["model", "scenario", "source", "score"]
        (collapseDuplicates d.rows)
      if isNumericCol d2.rows then .ok (d2, true)
      else .error (.valueError "score must be numeric")
  else
    if isNumericCol d.rows then .ok (DF.mk cols1 d.rows, false)
    else .error (.valueError "score must be numeric")

/-! ## Scenario Score Normalizer -/

/-- The numeric scores of a scenario group (pandas min/max skip NaN). -/
def scenarioScores (rows : List Row) (s : String) : List ℚ :=
  (rows.filter (fun r => r.scenario = s)).filterMap
    (fun r => match r.score with | .num q => some q | _ => none)

/-- The per-row effect of the groupby-apply `normalize`: rescale the score
by the group's min and max; a group with no spread gets the constant 1
(the scalar assignment hits every row of the group, NaN included). -/
def normalizeRowScore (rows : List Row) (r : Row) : Cell :=
  let g := scenarioScores rows r.scenario
  let m := listMin g
  let M := listMax g
  if M = m then .num 1
  else
    match r.score with
    | .num q => .num ((q - m) / (M - m))
    | c => c

/-- `Benchmark.normalize_scores_per_scenario`: per-scenario min–max
rescaling of the score column, with the orientation flip for
lower-is-better sources.  (The groupby-apply recombination is modelled as
preserving the original row order; each row's value is identical.) -/
def normalize_scores_per_scenario (d : DF) (lower_is_better : Bool) :
    Except Err DF :=
  if "score" ∉ d.cols then
    .error (.valueError "DataFrame must contain a score column")
  else
    let rows1 := d.rows.map (fun r =>
      { r with score := normalizeRowScore d.rows r })
    let rows2 :=
      if lower_is_better then
        rows1.map (fun r =>
          { r with score := match r.score with
                            | .num q => .num (1 - q)
                            | c => c })
      else rows1
    .ok ⟨d.cols, rows2⟩

/-! ## assign_df and the constructor -/

/-- Python truthiness of the optional `data_source` argument. -/
def dataSourceTruthy : Option String → Bool
  | some s => s ≠ ""
  | none => false

/-- `Benchmark.assign_df`: format the raw table (melt if wide, replace the
"-" sentinel by NaN, coerce scores, canonicalize names unless
`normalized_names`, add the aggragated_from and source columns), assign it
to `self.df`, run the post-formatting validation, drop NaN rows, and
normalize flipped for lower-is-better sources.  Returns the state as
mutated so far together with the propagated exception, if any (the
`lower_is_better` parameter of the source is unused by its body). -/
def assign_df (lowerList : List String) (lookup : String → Option String)
    (raw : RawDF) (data_source : Option String) (normalized_names : Bool)
    (lower_is_better : Bool) (st : BState) : BState × Option Err :=
  if raw.cols.headD "" ≠ "model" then
    (st, some (.assertionError "the zeroth df column mush be model"))
  else
    let df0 := rawToDF raw
    let df1 : DF := ⟨df0.cols, df0.rows.map (fun r =>
      { r with score := replaceDash r.score })⟩
    -- `df.dropna()` without `inplace=True` on the next source line is a no-op
    let scores2 := astypeFloatIgnore (df1.rows.map (fun r => r.score))
    let df2 : DF := ⟨df1.cols, df1.rows.zipWith
      (fun r c => { r with score := c }) scores2⟩
    let df3 : DF :=
      if normalized_names then df2
      else ⟨df2.cols, df2.rows.map (fun r =>
        { r with model := standardize_model_name r.model,
                 scenario := standardize_scenario_name lookup r.scenario })⟩
    let cols4 :=
      if "aggragated_from" ∈ df3.cols then df3.cols
      else df3.cols ++ ["aggragated_from"]
    let df4 : DF := ⟨cols4, df3.rows.map (fun r =>
      { r with aggragated_from := [] })⟩
    let df5 : DF :=
      if dataSourceTruthy data_source then
        ⟨if "source" ∈ df4.cols then df4.cols else df4.cols ++ ["source"],
         df4.rows.map (fun r => { r with source := data_source.getD "" })⟩
      else df4
    let st1 : BState := { st with df := some df5 }
    match validate_dataframe_post_formatting df5 with
    | .error e => (st1, some e)
    | .ok (df6, _warned) =>
      let df7 : DF := ⟨df6.cols, df6.rows.filter (fun r => r.score ≠ .na)⟩
      let st2 : BState := { st with df := some df7 }
      if lower_os_better_for_source lowerList data_source then
        match normalize_scores_per_scenario df7 true with
        | .error e => (st2, some e)
        | .ok df8 => (⟨false, some df8⟩, none)
      else (⟨false, some df7⟩, none)

/-- `Benchmark.__init__`: start empty; with a non-empty table, assert a
source is available, pre-validate, and assign. -/
def benchmarkInit (lowerList : List String) (lookup : String → Option String)
    (raw : RawDF) (data_source : Option String) (normalized_names : Bool) :
    BState × Option Err :=
  let st0 : BState := ⟨true, none⟩
  if 0 < raw.rows.length then
    if ¬ (dataSourceTruthy data_source ∨ "source" ∈ raw.cols) then
      (st0, some (.assertionError "A datasource must be inputted with a df"))
    else
      match validate_df_pre_formatting raw with
      | some e => (st0, some e)
      | none => assign_df lowerList lookup raw data_source normalized_names
          false st0
  else (st0, none)

/-! ## extend -/

/-- `pd.concat` of two frames sharing their column set (column-name union
in first-frame order; the repository always concatenates same-schema
frames). -/
def concatDF (a b : DF) : DF :=
  ⟨a.cols ++ b.cols.filter (fun c => c ∉ a.cols), a.rows ++ b.rows⟩

/-- `Benchmark.extend`: concatenate the other Benchmark's table onto this
one (no validation, no deduplication); with no own table yet, adopt the
other's. -/
def extend (self other : BState) : Except Err BState :=
  match self.df, other.df with
  | some d, some d2 => .ok { self with df := some (concatDF d d2) }
  | some _, none => .error (.valueError "cannot concatenate NoneType")
  | none, _ => .ok { self with df := other.df }

/-! ## Aggregation -/

/-- The inner `win_rate` of `calculate_win_rate`: the fraction of the
scenario's scores strictly below this one, out of the other entries. -/
def winRateOf (series : List ℚ) (x : ℚ) : ℚ :=
  ((series.countP (fun v => decide (v < x))) : ℚ) / ((series.length : ℚ) - 1)

/-- `calculate_win_rate`: asserts the scenario has more than one entry,
then transforms every score into its win rate. -/
def calculate_win_rate (series : List ℚ) : Except Err (List ℚ) :=
  if 1 < series.length then .ok (series.map (winRateOf series))
  else .error (.assertionError
    "Error: tryting to get the mean win rate with only one column")

/-- `Benchmark.add_aggregate`: filter scenarios by the blacklist or the
whitelist (with neither, `df_for_agg` is never bound and its first use
raises UnboundLocalError), drop models under the coverage threshold,
compute per-scenario win rates (asserting every scenario group has more
than one entry), average score and win rate per model, and append one
synthetic row per model whose aggragated_from is the full table's
scenario list minus the blacklist. -/
def add_aggregate (d : DF) (new_col_name : String)
    (scenario_blacklist scenario_whitelist : List String)
    (mean_or_mwr : String) (agg_source_name : Option String)
    (min_scenario_for_models_to_appear_in_agg : Nat) : Except Err DF :=
  let go : List Row → Except Err DF := fun dfa0 =>
    let n_scenario_for_aggregate := (uniqueKeep (dfa0.map (fun r => r.scenario))).length
    let minSc := min min_scenario_for_models_to_appear_in_agg n_scenario_for_aggregate
    let models_to_consider := (sortStr (uniqueKeep (dfa0.map (fun r => r.model)))).filter
      (fun m => minSc ≤ dfa0.countP (fun r => r.model = m))
    let dfa := dfa0.filter (fun r => models_to_consider.contains r.model)
    if dfa.any (fun r => dfa.countP (fun r2 => r2.scenario = r.scenario) ≤ 1) then
      .error (.assertionError
        "Error: tryting to get the mean win rate with only one column")
    else
      let wrOf : Row → ℚ := fun r =>
        winRateOf ((dfa.filter (fun r2 => r2.scenario = r.scenario)).map
          (fun r2 => cellQ r2.score)) (cellQ r.score)
      let srcRes : Except Err String :=
        match agg_source_name with
        | some s => .ok s
        | none =>
          let srcs := uniqueKeep (d.rows.map (fun r => r.source))
          if srcs.length = 1 then .ok (srcs.headD "")
          else .error (.ioError
            "more that one source for aggrageted column, in this case, you must specify a agg_source_name")
      match srcRes with
      | .error e => .error e
      | .ok src =>
        let aggFrom := (uniqueKeep (d.rows.map (fun r => r.scenario))).filter
          (fun s => ¬ scenario_blacklist.contains s)
        let newRows := (sortStr (uniqueKeep (dfa.map (fun r => r.model)))).map
          (fun m =>
            let mrows := dfa.filter (fun r => r.model = m)
            let meanScore := (mrows.map (fun r => cellQ r.score)).sum / (mrows.length : ℚ)
            let meanWr := (mrows.map wrOf).sum / (mrows.length : ℚ)
            Row.mk m new_col_name
              (.num (if mean_or_mwr = "mwr" then meanWr else meanScore))
              src aggFrom)
        .ok ⟨d.cols, d.rows ++ newRows⟩
  if scenario_blacklist ≠ [] ∧ scenario_whitelist ≠ [] then
    .error (.assertionError
      "either scenario_blacklist or scenario_whitelist can be inputted, but not both")
  else if scenario_blacklist ≠ [] then
    go (d.rows.filter (fun r => ¬ scenario_blacklist.contains r.scenario))
  else if scenario_whitelist ≠ [] then
    go (d.rows.filter (fun r => scenario_whitelist.contains r.scenario))
  else
    .error (.unboundLocalError "df_for_agg")

/-! ## Concrete fixtures used by the claim theorems -/

/-- A wide raw table whose only score is the non-numeric string "abc". -/
def rawC2 : RawDF := ⟨["model", "s1"], [[.str "m1", .str "abc"]]⟩

/-- A long raw table with a duplicated (model, scenario) pair and numeric
scores. -/
def rawC3 : RawDF := ⟨["model", "scenario", "score"],
  [[.str "m1", .str "s1", .num 1], [.str "m1", .str "s1", .num 2]]⟩

/-- A minimal wide raw table: one model, one scenario, one numeric score. -/
def rawC4 : RawDF := ⟨["model", "s1"], [[.str "m1", .num 1]]⟩

/-- A validated two-scenario Dataset Table with two models on scenario s1
and one on s2, all from one source. -/
def dC8 : DF := ⟨requiredCols,
  [⟨"m1", "s1", .num 1, "src", []⟩, ⟨"m2", "s1", .num 2, "src", []⟩,
   ⟨"m1", "s2", .num 3, "src", []⟩]⟩

/-! ## Claim theorems -/

/-- C1: calling add_aggregate with neither a scenario blacklist nor a
scenario whitelist never succeeds: `df_for_agg` is unbound in that branch
and its first use raises UnboundLocalError, for every table (the claim
says this call succeeds and aggregates over all scenarios). -/
theorem c1_add_aggregate_no_filter_crashes
    (d : DF) (name mode : String) (src : Option String) (m : Nat) :
    add_aggregate d name [] [] mode src m =
      .error (.unboundLocalError "df_for_agg") := by
  simp [add_aggregate]

/-- C2 (counterexample): ingesting a wide table whose score "abc" fails
numeric validation raises, yet the Dataset Table's visible state after the
failed call is not its state before the call: `self.df` has already been
reassigned to the formatted table (the claim says a failed ingest mutates
nothing). -/
theorem c2_counterexample :
    (benchmarkInit [] (fun _ => none) rawC2 (some "src") false).2 =
      some (.valueError "score must be numeric") ∧
    (benchmarkInit [] (fun _ => none) rawC2 (some "src") false).1.df =
      some ⟨["model", "scenario", "score", "aggragated_from", "source"],
        [⟨"m1", "s1", .str "abc", "src", []⟩]⟩ ∧
    some (DF.mk ["model", "scenario", "score", "aggragated_from", "source"]
        [⟨"m1", "s1", .str "abc", "src", []⟩]) ≠ (none : Option DF) := by
  refine ⟨by decide, by decide, by decide⟩

/-- C2 (amended): a failed ingest never flips the `is_empty` flag — that
much of the visible state is preserved — but it is not atomic on `df`,
which a post-formatting failure leaves holding the formatted table. -/
theorem c2_failed_ingest_preserves_is_empty
    (lowerList : List String) (lookup : String → Option String)
    (raw : RawDF) (ds : Option String) (nn lb : Bool) (st : BState)
    (h : (assign_df lowerList lookup raw ds nn lb st).2 ≠ none) :
    ((assign_df lowerList lookup raw ds nn lb st).1).is_empty =
      st.is_empty := by
  revert h
  simp only [assign_df]
  repeat' split
  all_goals simp

/-- C2 (witness): the amended theorem applied to the failing wide table. -/
theorem c2_witness :
    ((assign_df [] (fun _ => none) rawC2 (some "src") false false
        ⟨true, none⟩).2 ≠ none) ∧
    ((assign_df [] (fun _ => none) rawC2 (some "src") false false
        ⟨true, none⟩).1).is_empty = true :=
  ⟨by decide, c2_failed_ingest_preserves_is_empty [] (fun _ => none) rawC2
    (some "src") false false ⟨true, none⟩ (by decide)⟩

/-- C3: a successful ingestion that triggered the duplicate collapse
leaves the Dataset Table with column set {model, scenario, source, score}:
the collapse drops aggragated_from, violating the exact-column-set
invariant the validator itself enforces (the claim says the column set
always equals the five required columns after a successful ingestion). -/
theorem c3_duplicate_collapse_drops_aggregated_from :
    (benchmarkInit [] (fun _ => none) rawC3 (some "src") false).2 = none ∧
    (benchmarkInit [] (fun _ => none) rawC3 (some "src") false).1 =
      ⟨false, some ⟨["model", "scenario", "source", "score"],
        [⟨"m1", "s1", .num 2, "src", []⟩]⟩⟩ ∧
    sortStr ["model", "scenario", "source", "score"] ≠
      sortStr requiredCols := by
  refine ⟨by decide, by decide, by decide⟩

/-- C7 (counterexample): model-name canonicalization is not idempotent:
"ul2" maps to "flan-ul2", whose own image is "flan_flan-ul2" (the final
hyphen-to-underscore pass runs before the "ul2" rule, so the rule
re-fires on its previous output). -/
theorem c7_counterexample :
    standardize_model_name "ul2" = "flan-ul2" ∧
    standardize_model_name (standardize_model_name "ul2") =
      "flan_flan-ul2" ∧
    standardize_model_name (standardize_model_name "ul2") ≠
      standardize_model_name "ul2" := by
  refine ⟨by decide, by decide, by decide⟩

/-- C7 (amended): canonicalization is idempotent on the tested inputs —
representative raw model and scenario labels, the scenario side with the
display lookup absent — though not for every string ("ul2" fails). -/
theorem c7_canonicalization_idempotent_on_tested_inputs :
    (["llama3_8b_instruct", "mixtral_8x7b_instruct_v0_1", "gpt_4o",
      "meta-llama/Meta-Llama-3-8B-Instruct", "Command R+",
      "DBRX Instruct"].all (fun x =>
        standardize_model_name (standardize_model_name x) =
          standardize_model_name x) = true) ∧
    (["mmlu", "hellaswag", "Winogrande", "GSM 8K", "ARC (Challenge)",
      "AGI Eval"].all (fun x =>
        standardize_scenario_name (fun _ => none)
            (standardize_scenario_name (fun _ => none) x) =
          standardize_scenario_name (fun _ => none) x) = true) := by
  refine ⟨by decide, by decide⟩

/-- Erasing one occurrence of an element the predicate rejects does not
change the predicate count. -/
theorem countP_erase_of_not (l : List ℚ) (x : ℚ) (p : ℚ → Bool)
    (hp : p x = false) : (l.erase x).countP p = l.countP p := by
  induction l with
  | nil => rfl
  | cons a as ih =>
    rw [List.erase_cons]
    by_cases hax : a = x
    · subst hax
      simp [List.countP_cons, hp]
    · have : (a == x) = false := by simp [hax]
      simp [this, List.countP_cons, ih]

/-- A member the predicate rejects forces the count strictly below the
length. -/
theorem countP_succ_le_length (l : List ℚ) (x : ℚ) (p : ℚ → Bool)
    (hx : x ∈ l) (hp : p x = false) : l.countP p + 1 ≤ l.length := by
  have hsplit := List.length_eq_countP_add_countP p l
  have hpos : 0 < l.countP (fun a => decide ¬(p a = true)) :=
    List.countP_pos_iff.mpr ⟨x, hx, by simp [hp]⟩
  omega

/-- C4 (counterexample): ingesting the same one-row raw table twice with
source "s" via extend yields two records for the single (model, scenario,
source) triple — the count is doubled, not equal to the distinct
model×scenario count (the claim says it is never doubled). -/
theorem c4_counterexample :
    extend (benchmarkInit [] (fun _ => none) rawC4 (some "s") false).1
           (benchmarkInit [] (fun _ => none) rawC4 (some "s") false).1 =
      .ok ⟨false, some ⟨["model", "scenario", "score", "aggragated_from",
          "source"],
        [⟨"m1", "s1", .num 1, "s", []⟩, ⟨"m1", "s1", .num 1, "s", []⟩]⟩⟩ ∧
    tripleCount [⟨"m1", "s1", .num 1, "s", []⟩,
      ⟨"m1", "s1", .num 1, "s", []⟩] ("m1", "s1", "s") = 2 ∧
    (uniqueKeep (([⟨"m1", "s1", .num 1, "s", []⟩,
      ⟨"m1", "s1", .num 1, "s", []⟩] : List Row).map
        (fun r => (r.model, r.scenario)))).length = 1 ∧
    (2 : Nat) ≠ 1 := by
  refine ⟨by decide, by decide, by decide, by decide⟩

/-- C4 (amended): extending a Benchmark with an identical copy
concatenates without deduplication, so every (model, scenario, source)
count is exactly doubled; the collapse to distinct triples happens only
when the post-formatting validation next runs, not in extend. -/
theorem c4_extend_concatenates_without_dedup (st : BState) (d : DF)
    (h : st.df = some d) :
    extend st st = .ok { st with df := some (concatDF d d) } ∧
    ∀ t, tripleCount (concatDF d d).rows t = 2 * tripleCount d.rows t := by
  constructor
  · simp [extend, h]
  · intro t
    simp [concatDF, tripleCount, List.countP_append, two_mul]

/-- C4 (witness): the amended theorem applied to a concrete one-row
state. -/
theorem c4_witness :
    (BState.mk false (some ⟨requiredCols, [⟨"m1", "s1", .num 1, "s", []⟩]⟩)).df
      = some ⟨requiredCols, [⟨"m1", "s1", .num 1, "s", []⟩]⟩ ∧
    extend (BState.mk false (some ⟨requiredCols,
        [⟨"m1", "s1", .num 1, "s", []⟩]⟩))
      (BState.mk false (some ⟨requiredCols,
        [⟨"m1", "s1", .num 1, "s", []⟩]⟩)) =
      .ok { BState.mk false (some ⟨requiredCols,
          [⟨"m1", "s1", .num 1, "s", []⟩]⟩) with
        df := some (concatDF ⟨requiredCols, [⟨"m1", "s1", .num 1, "s", []⟩]⟩
          ⟨requiredCols, [⟨"m1", "s1", .num 1, "s", []⟩]⟩) } :=
  ⟨rfl, (c4_extend_concatenates_without_dedup _ _ rfl).1⟩

/-- C5: in win-rate mode, for every scenario series with more than one
entry, calculate_win_rate succeeds and gives each score x the rate
count(other scores y with x > y) / (N - 1), always in [0, 1]; the series
[1, 2, 3] gets [0, 1/2, 1]; a single-entry scenario violates the
assertion. -/
theorem c5_win_rate (series : List ℚ) (h : 1 < series.length) :
    (calculate_win_rate series = .ok (series.map (winRateOf series)) ∧
     ∀ x ∈ series,
       winRateOf series x =
         (((series.erase x).countP (fun v => decide (v < x))) : ℚ) /
           ((series.length : ℚ) - 1) ∧
       0 ≤ winRateOf series x ∧ winRateOf series x ≤ 1) ∧
    calculate_win_rate [1, 2, 3] = .ok [0, 1/2, 1] ∧
    ∀ q : ℚ, calculate_win_rate [q] = .error (.assertionError
      "Error: tryting to get the mean win rate with only one column") := by
  have hlen : (2 : ℚ) ≤ (series.length : ℚ) := by
    exact_mod_cast h
  have hpos : (0 : ℚ) < (series.length : ℚ) - 1 := by linarith
  refine ⟨⟨by simp [calculate_win_rate, h], ?_⟩, ?_, fun q => by
    simp [calculate_win_rate]⟩
  case refine_2 =>
    simp [calculate_win_rate, winRateOf]
    norm_num
  intro x hx
  have hself : (decide (x < x)) = false := by simp
  refine ⟨by rw [winRateOf, countP_erase_of_not _ _ _ hself], ?_, ?_⟩
  · exact div_nonneg (by positivity) (le_of_lt hpos)
  · rw [winRateOf, div_le_one hpos]
    have hcnt := countP_succ_le_length series x
      (fun v => decide (v < x)) hx hself
    have : ((series.countP (fun v => decide (v < x)) : ℕ) : ℚ) + 1 ≤
        (series.length : ℚ) := by exact_mod_cast hcnt
    linarith

/-- C5 (witness): the theorem applied to the concrete series [1, 2, 3]. -/
theorem c5_witness :
    1 < ([1, 2, 3] : List ℚ).length ∧
    calculate_win_rate ([1, 2, 3] : List ℚ) =
      .ok ([1, 2, 3].map (winRateOf [1, 2, 3])) :=
  ⟨by decide, (c5_win_rate [1, 2, 3] (by decide)).1.1⟩

/-- C8 (counterexample): aggregating with whitelist ["s1"] over a table
whose scenarios are s1 and s2 produces synthetic rows whose
aggragated_from is ["s1", "s2"] — all the table's scenarios — not the
whitelist ["s1"] as the claim requires. -/
theorem c8_counterexample :
    add_aggregate dC8 "agg" [] ["s1"] "mwr" none 0 =
      .ok ⟨requiredCols,
        dC8.rows ++
          [⟨"m1", "agg", .num 0, "src", ["s1", "s2"]⟩,
           ⟨"m2", "agg", .num 1, "src", ["s1", "s2"]⟩]⟩ ∧
    (["s1", "s2"] : List String) ≠ ["s1"] := by
  constructor
  · simp +decide [add_aggregate, dC8, requiredCols, uniqueKeep, uniqueAux,
      sortStr, insertStr, strLe, strLt, charListLt, winRateOf, cellQ,
      tripleOf]
    norm_num
  · decide

/-- C8 (amended): every successful add_aggregate call appends rows whose
aggragated_from is the full table's scenario list filtered by the
blacklist only — the whitelist is ignored by this computation, so in
whitelist mode aggragated_from is all the table's scenarios, not the
whitelist. -/
theorem c8_aggregated_from_ignores_whitelist
    (d : DF) (name mode : String) (bl wl : List String)
    (srcName : Option String) (minSc : Nat) (d2 : DF)
    (h : add_aggregate d name bl wl mode srcName minSc = .ok d2) :
    ∃ newRows : List Row, d2.rows = d.rows ++ newRows ∧
      ∀ r ∈ newRows, r.aggragated_from =
        (uniqueKeep (d.rows.map (fun r2 => r2.scenario))).filter
          (fun s => ¬ bl.contains s) := by
  revert h
  simp only [add_aggregate]
  repeat' split
  all_goals intro h
  all_goals cases h
  all_goals refine ⟨_, rfl, ?_⟩
  all_goals intro r hr
  all_goals obtain ⟨m, hm, rfl⟩ := List.mem_map.mp hr
  all_goals rfl

/-- C8 (witness): the amended theorem applied to the concrete whitelist
aggregation. -/
theorem c8_witness :
    (add_aggregate dC8 "agg" [] ["s1"] "mwr" none 0 =
      .ok ⟨requiredCols,
        dC8.rows ++
          [⟨"m1", "agg", .num 0, "src", ["s1", "s2"]⟩,
           ⟨"m2", "agg", .num 1, "src", ["s1", "s2"]⟩]⟩) ∧
    ∃ newRows : List Row,
      (DF.mk requiredCols (dC8.rows ++
          [⟨"m1", "agg", .num 0, "src", ["s1", "s2"]⟩,
           ⟨"m2", "agg", .num 1, "src", ["s1", "s2"]⟩])).rows =
        dC8.rows ++ newRows ∧
      ∀ r ∈ newRows, r.aggragated_from =
        (uniqueKeep (dC8.rows.map (fun r2 => r2.scenario))).filter
          (fun s => ¬ ([] : List String).contains s) := by
  have heval : add_aggregate dC8 "agg" [] ["s1"] "mwr" none 0 =
      .ok ⟨requiredCols,
        dC8.rows ++
          [⟨"m1", "agg", .num 0, "src", ["s1", "s2"]⟩,
           ⟨"m2", "agg", .num 1, "src", ["s1", "s2"]⟩]⟩ := by
    simp +decide [add_aggregate, dC8, requiredCols, uniqueKeep, uniqueAux,
      sortStr, insertStr, strLe, strLt, charListLt, winRateOf, cellQ,
      tripleOf]
    norm_num
  exact ⟨heval, c8_aggregated_from_ignores_whitelist dC8 "agg" "mwr" []
    ["s1"] none 0 _ heval⟩

/-- A min-fold is bounded by its initial value. -/
theorem foldl_min_le_init (xs : List ℚ) (a : ℚ) : xs.foldl min a ≤ a := by
  induction xs generalizing a with
  | nil => simp
  | cons x xs ih => exact le_trans (ih (min a x)) (min_le_left a x)

/-- A min-fold is bounded by every list element. -/
theorem foldl_min_le_mem (xs : List ℚ) (a x : ℚ) (hx : x ∈ xs) :
    xs.foldl min a ≤ x := by
  induction xs generalizing a with
  | nil => cases hx
  | cons y ys ih =>
    rcases List.mem_cons.mp hx with rfl | hmem
    · exact le_trans (foldl_min_le_init ys (min a x)) (min_le_right a x)
    · exact ih (min a y) hmem

/-- A min-fold returns its initial value or a list element. -/
theorem foldl_min_mem (xs : List ℚ) (a : ℚ) :
    xs.foldl min a = a ∨ xs.foldl min a ∈ xs := by
  induction xs generalizing a with
  | nil => exact Or.inl rfl
  | cons x xs ih =>
    rcases ih (min a x) with h | h
    · rcases min_cases a x with ⟨he, _⟩ | ⟨he, _⟩
      · exact Or.inl (by rw [List.foldl_cons, h, he])
      · exact Or.inr (by rw [List.foldl_cons, h, he]; exact .head _)
    · exact Or.inr (.tail _ h)

/-- A max-fold is bounded below by its initial value. -/
theorem le_foldl_max_init (xs : List ℚ) (a : ℚ) : a ≤ xs.foldl max a := by
  induction xs generalizing a with
  | nil => simp
  | cons x xs ih => exact le_trans (le_max_left a x) (ih (max a x))

/-- A max-fold is bounded below by every list element. -/
theorem le_foldl_max_mem (xs : List ℚ) (a x : ℚ) (hx : x ∈ xs) :
    x ≤ xs.foldl max a := by
  induction xs generalizing a with
  | nil => cases hx
  | cons y ys ih =>
    rcases List.mem_cons.mp hx with rfl | hmem
    · exact le_trans (le_max_right a x) (le_foldl_max_init ys (max a x))
    · exact ih (max a y) hmem

/-- A max-fold returns its initial value or a list element. -/
theorem foldl_max_mem (xs : List ℚ) (a : ℚ) :
    xs.foldl max a = a ∨ xs.foldl max a ∈ xs := by
  induction xs generalizing a with
  | nil => exact Or.inl rfl
  | cons x xs ih =>
    rcases ih (max a x) with h | h
    · rcases max_cases a x with ⟨he, _⟩ | ⟨he, _⟩
      · exact Or.inl (by rw [List.foldl_cons, h, he])
      · exact Or.inr (by rw [List.foldl_cons, h, he]; exact .head _)
    · exact Or.inr (.tail _ h)

/-- The group minimum is attained in a non-empty group. -/
theorem listMin_mem (l : List ℚ) (h : l ≠ []) : listMin l ∈ l := by
  match l with
  | x :: xs =>
    rcases foldl_min_mem xs x with he | hm
    · rw [listMin, he]; exact .head _
    · exact .tail _ (by rw [listMin]; exact hm)

/-- The group minimum bounds every group element. -/
theorem listMin_le (l : List ℚ) (x : ℚ) (hx : x ∈ l) : listMin l ≤ x := by
  match l with
  | y :: ys =>
    rcases List.mem_cons.mp hx with rfl | hmem
    · exact foldl_min_le_init ys x
    · exact foldl_min_le_mem ys y x hmem

/-- The group maximum is attained in a non-empty group. -/
theorem listMax_mem (l : List ℚ) (h : l ≠ []) : listMax l ∈ l := by
  match l with
  | x :: xs =>
    rcases foldl_max_mem xs x with he | hm
    · rw [listMax, he]; exact .head _
    · exact .tail _ (by rw [listMax]; exact hm)

/-- The group maximum bounds every group element. -/
theorem le_listMax (l : List ℚ) (x : ℚ) (hx : x ∈ l) : x ≤ listMax l := by
  match l with
  | y :: ys =>
    rcases List.mem_cons.mp hx with rfl | hmem
    · exact le_foldl_max_init ys x
    · exact le_foldl_max_mem ys y x hmem

/-- Unfolding step for the scores of a scenario group. -/
theorem scenarioScores_cons (m sc : String) (c : Cell) (src : String)
    (af : List String) (rows : List Row) (s : String) :
    scenarioScores (⟨m, sc, c, src, af⟩ :: rows) s =
      (if sc = s then
        (match c with | .num q => [q] | _ => []) else []) ++
      scenarioScores rows s := by
  by_cases hs : sc = s
  · simp only [scenarioScores, List.filter_cons, hs, if_pos]
    simp only [Row.scenario, decide_eq_true_eq, if_true]
    cases c <;> simp [scenarioScores]
  · simp [scenarioScores, List.filter_cons, hs]

/-- The normalized table's scenario group scores are the pointwise min–max
rescaling of the original group scores (with the constant-1 policy when
the group has no spread), for numeric tables. -/
theorem scenarioScores_map_normalize (rows0 rows : List Row) (s : String)
    (hnum : ∀ r ∈ rows, ∃ q : ℚ, r.score = .num q) :
    scenarioScores (rows.map (fun r =>
      { r with score := normalizeRowScore rows0 r })) s =
      (scenarioScores rows s).map (fun q =>
        if listMax (scenarioScores rows0 s) =
            listMin (scenarioScores rows0 s) then 1
        else (q - listMin (scenarioScores rows0 s)) /
          (listMax (scenarioScores rows0 s) -
            listMin (scenarioScores rows0 s))) := by
  induction rows with
  | nil => rfl
  | cons r rs ih =>
    obtain ⟨q, hq⟩ := hnum r (.head _)
    have ih2 := ih (fun x hx => hnum x (.tail _ hx))
    obtain ⟨rm, rsc, rc, rsrc, raf⟩ := r
    simp only [Row.score] at hq
    subst hq
    by_cases hs : rsc = s
    · have hkey : normalizeRowScore rows0 ⟨rm, rsc, .num q, rsrc, raf⟩ =
          Cell.num (if listMax (scenarioScores rows0 s) =
              listMin (scenarioScores rows0 s) then 1
            else (q - listMin (scenarioScores rows0 s)) /
              (listMax (scenarioScores rows0 s) -
                listMin (scenarioScores rows0 s))) := by
        simp only [normalizeRowScore, Row.scenario, Row.score, hs]
        split <;> rfl
      rw [List.map_cons]
      show scenarioScores
          (⟨rm, rsc, normalizeRowScore rows0 ⟨rm, rsc, .num q, rsrc, raf⟩,
            rsrc, raf⟩ :: rs.map (fun r =>
              { r with score := normalizeRowScore rows0 r })) s = _
      rw [hkey, scenarioScores_cons, scenarioScores_cons, ih2]
      simp [hs]
    · rw [List.map_cons]
      show scenarioScores
          (⟨rm, rsc, normalizeRowScore rows0 ⟨rm, rsc, .num q, rsrc, raf⟩,
            rsrc, raf⟩ :: rs.map (fun r =>
              { r with score := normalizeRowScore rows0 r })) s = _
      rw [scenarioScores_cons, scenarioScores_cons, ih2]
      simp [hs]

/-- A numeric score of a row of the group contributes to the group's
score list. -/
theorem mem_scenarioScores (rows : List Row) (s : String) (r : Row) (q : ℚ)
    (hr : r ∈ rows) (hs : r.scenario = s) (hq : r.score = .num q) :
    q ∈ scenarioScores rows s := by
  simp only [scenarioScores]
  refine List.mem_filterMap.mpr ⟨r, List.mem_filter.mpr ⟨hr, by simp [hs]⟩,
    ?_⟩
  rw [hq]

/-- C6: after score normalization (in the default higher-is-better
orientation), every scenario group attains 0 as its minimum and 1 as its
maximum normalized score, computed by per-group min–max rescaling —
except that a group whose raw scores are all equal has every normalized
score equal to 1. -/
theorem c6_normalization_range (d : DF) (s : String)
    (hscore : "score" ∈ d.cols)
    (hnum : ∀ r ∈ d.rows, ∃ q : ℚ, r.score = .num q)
    (hs : s ∈ d.rows.map (fun r => r.scenario)) :
    ∃ d2, normalize_scores_per_scenario d false = .ok d2 ∧
      ((¬ ∀ y ∈ scenarioScores d.rows s, ∀ z ∈ scenarioScores d.rows s,
          y = z) →
        (0 : ℚ) ∈ scenarioScores d2.rows s ∧
        (1 : ℚ) ∈ scenarioScores d2.rows s ∧
        ∀ y ∈ scenarioScores d2.rows s, 0 ≤ y ∧ y ≤ 1) ∧
      ((∀ y ∈ scenarioScores d.rows s, ∀ z ∈ scenarioScores d.rows s,
          y = z) →
        ∀ y ∈ scenarioScores d2.rows s, y = 1) := by
  have hok : normalize_scores_per_scenario d false =
      .ok ⟨d.cols, d.rows.map (fun r =>
        { r with score := normalizeRowScore d.rows r })⟩ := by
    simp [normalize_scores_per_scenario, hscore]
  have hmap := scenarioScores_map_normalize d.rows d.rows s hnum
  obtain ⟨r, hr, hrs⟩ := List.mem_map.mp hs
  obtain ⟨q0, hq0⟩ := hnum r hr
  have hq0g : q0 ∈ scenarioScores d.rows s :=
    mem_scenarioScores d.rows s r q0 hr hrs hq0
  have hgne : scenarioScores d.rows s ≠ [] := by
    intro he
    rw [he] at hq0g
    cases hq0g
  have hmmem := listMin_mem (scenarioScores d.rows s) hgne
  have hMmem := listMax_mem (scenarioScores d.rows s) hgne
  refine ⟨_, hok, ?_, ?_⟩
  · intro hne
    have hMm : listMax (scenarioScores d.rows s) ≠
        listMin (scenarioScores d.rows s) := by
      intro he
      refine hne (fun y hy z hz => ?_)
      have h1 := listMin_le _ y hy
      have h2 := le_listMax _ y hy
      have h3 := listMin_le _ z hz
      have h4 := le_listMax _ z hz
      rw [he] at h2 h4
      linarith
    have hlt : listMin (scenarioScores d.rows s) <
        listMax (scenarioScores d.rows s) :=
      lt_of_le_of_ne (listMin_le _ _ hMmem) (fun he => hMm he.symm)
    have hden : (0 : ℚ) < listMax (scenarioScores d.rows s) -
        listMin (scenarioScores d.rows s) := by linarith
    refine ⟨?_, ?_, ?_⟩
    · rw [hmap]
      refine List.mem_map.mpr ⟨listMin (scenarioScores d.rows s), hmmem, ?_⟩
      rw [if_neg hMm, sub_self, zero_div]
    · rw [hmap]
      refine List.mem_map.mpr ⟨listMax (scenarioScores d.rows s), hMmem, ?_⟩
      rw [if_neg hMm, div_self (ne_of_gt hden)]
    · intro y hy
      rw [hmap] at hy
      obtain ⟨q, hq, rfl⟩ := List.mem_map.mp hy
      rw [if_neg hMm]
      constructor
      · exact div_nonneg (sub_nonneg.mpr (listMin_le _ q hq))
          (le_of_lt hden)
      · rw [div_le_one hden]
        have := le_listMax _ q hq
        linarith
  · intro hall y hy
    rw [hmap] at hy
    obtain ⟨q, hq, rfl⟩ := List.mem_map.mp hy
    rw [if_pos (hall _ hMmem _ hmmem)]

/-- C6 (witness): the theorem applied to a concrete table with a spread
scenario group [1, 2, 3] on s1 (and an all-equal group on s2). -/
theorem c6_witness :
    ("score" ∈ (DF.mk requiredCols
      [⟨"m1", "s1", .num 1, "src", []⟩, ⟨"m2", "s1", .num 2, "src", []⟩,
       ⟨"m3", "s1", .num 3, "src", []⟩, ⟨"m1", "s2", .num 5, "src", []⟩,
       ⟨"m2", "s2", .num 5, "src", []⟩]).cols) ∧
    ∃ d2, normalize_scores_per_scenario (DF.mk requiredCols
        [⟨"m1", "s1", .num 1, "src", []⟩, ⟨"m2", "s1", .num 2, "src", []⟩,
         ⟨"m3", "s1", .num 3, "src", []⟩, ⟨"m1", "s2", .num 5, "src", []⟩,
         ⟨"m2", "s2", .num 5, "src", []⟩]) false = .ok d2 ∧
      ((¬ ∀ y ∈ scenarioScores (DF.mk requiredCols
          [⟨"m1", "s1", .num 1, "src", []⟩, ⟨"m2", "s1", .num 2, "src", []⟩,
           ⟨"m3", "s1", .num 3, "src", []⟩, ⟨"m1", "s2", .num 5, "src", []⟩,
           ⟨"m2", "s2", .num 5, "src", []⟩]).rows "s1",
          ∀ z ∈ scenarioScores (DF.mk requiredCols
          [⟨"m1", "s1", .num 1, "src", []⟩, ⟨"m2", "s1", .num 2, "src", []⟩,
           ⟨"m3", "s1", .num 3, "src", []⟩, ⟨"m1", "s2", .num 5, "src", []⟩,
           ⟨"m2", "s2", .num 5, "src", []⟩]).rows "s1", y = z) →
        (0 : ℚ) ∈ scenarioScores d2.rows "s1" ∧
        (1 : ℚ) ∈ scenarioScores d2.rows "s1" ∧
        ∀ y ∈ scenarioScores d2.rows "s1", 0 ≤ y ∧ y ≤ 1) ∧
      ((∀ y ∈ scenarioScores (DF.mk requiredCols
          [⟨"m1", "s1", .num 1, "src", []⟩, ⟨"m2", "s1", .num 2, "src", []⟩,
           ⟨"m3", "s1", .num 3, "src", []⟩, ⟨"m1", "s2", .num 5, "src", []⟩,
           ⟨"m2", "s2", .num 5, "src", []⟩]).rows "s1",
          ∀ z ∈ scenarioScores (DF.mk requiredCols
          [⟨"m1", "s1", .num 1, "src", []⟩, ⟨"m2", "s1", .num 2, "src", []⟩,
           ⟨"m3", "s1", .num 3, "src", []⟩, ⟨"m1", "s2", .num 5, "src", []⟩,
           ⟨"m2", "s2", .num 5, "src", []⟩]).rows "s1", y = z) →
        ∀ y ∈ scenarioScores d2.rows "s1", y = 1) :=
  ⟨by decide, c6_normalization_range _ "s1" (by decide)
    (by
      intro r hr
      simp only [List.mem_cons] at hr
      rcases hr with rfl | rfl | rfl | rfl | rfl | h
      · exact ⟨1, rfl⟩
      · exact ⟨2, rfl⟩
      · exact ⟨3, rfl⟩
      · exact ⟨5, rfl⟩
      · exact ⟨5, rfl⟩
      · cases h)
    (by decide)⟩

/-- Inserting into the sorted triple list is a permutation of consing. -/
theorem insertTriple_perm (x : String × String × String)
    (l : List (String × String × String)) :
    List.Perm (insertTriple x l) (x :: l) := by
  induction l with
  | nil => exact .refl _
  | cons y ys ih =>
    rw [insertTriple]
    split
    · exact .refl _
    · exact (ih.cons y).trans (List.Perm.swap x y ys)

/-- The triple sort permutes its input. -/
theorem sortTriples_perm (l : List (String × String × String)) :
    List.Perm (sortTriples l) l := by
  induction l with
  | nil => exact .refl _
  | cons x xs ih => exact (insertTriple_perm x (sortTriples xs)).trans (ih.cons x)

/-- Membership in the deduplication accumulator. -/
theorem mem_uniqueAux {α : Type} [DecidableEq α] (seen l : List α) (x : α) :
    x ∈ uniqueAux seen l ↔ x ∈ l ∧ x ∉ seen := by
  induction l generalizing seen with
  | nil => simp [uniqueAux]
  | cons y ys ih =>
    rw [uniqueAux]
    by_cases hy : y ∈ seen
    · rw [if_pos hy, ih]
      constructor
      · rintro ⟨h1, h2⟩
        exact ⟨.tail _ h1, h2⟩
      · rintro ⟨h1, h2⟩
        rcases List.mem_cons.mp h1 with rfl | h1
        · exact absurd hy h2
        · exact ⟨h1, h2⟩
    · rw [if_neg hy]
      simp only [List.mem_cons, ih, List.mem_cons]
      constructor
      · rintro (rfl | ⟨h1, h2⟩)
        · exact ⟨Or.inl rfl, hy⟩
        · exact ⟨Or.inr h1, fun hc => h2 (Or.inr hc)⟩
      · rintro ⟨rfl | h1, h2⟩
        · exact Or.inl rfl
        · by_cases hxy : x = y
          · exact Or.inl hxy
          · exact Or.inr ⟨h1, fun hc => hxy (by
              rcases hc with h | h
              · exact h
              · exact absurd h h2)⟩

/-- Deduplication keeps each value once. -/
theorem uniqueAux_nodup {α : Type} [DecidableEq α] (seen l : List α) :
    (uniqueAux seen l).Nodup := by
  induction l generalizing seen with
  | nil => exact List.nodup_nil
  | cons y ys ih =>
    rw [uniqueAux]
    by_cases hy : y ∈ seen
    · rw [if_pos hy]
      exact ih seen
    · rw [if_neg hy]
      refine List.nodup_cons.mpr ⟨?_, ih (y :: seen)⟩
      intro hc
      exact ((mem_uniqueAux (y :: seen) ys y).mp hc).2 (.head _)

/-- pandas unique keeps exactly the distinct values. -/
theorem mem_uniqueKeep {α : Type} [DecidableEq α] (l : List α) (x : α) :
    x ∈ uniqueKeep l ↔ x ∈ l := by
  rw [uniqueKeep, mem_uniqueAux]
  simp

/-- pandas unique yields no duplicates. -/
theorem uniqueKeep_nodup {α : Type} [DecidableEq α] (l : List α) :
    (uniqueKeep l).Nodup :=
  uniqueAux_nodup [] l

/-- Filtering a per-key built list by one key yields that key's single
entry. -/
theorem filter_map_mk_by_key (rows : List Row)
    (L : List (String × String × String)) (hnd : L.Nodup)
    (t : String × String × String) :
    (L.map (fun t2 => (⟨t2.1, t2.2.1, maxScoreCell rows t2, t2.2.2, []⟩ :
        Row))).filter (fun r => tripleOf r = t) =
      if t ∈ L then [⟨t.1, t.2.1, maxScoreCell rows t, t.2.2, []⟩] else [] := by
  induction L with
  | nil => simp
  | cons a as ih =>
    obtain ⟨ha, hnd2⟩ := List.nodup_cons.mp hnd
    rw [List.map_cons, List.filter_cons]
    by_cases hat : a = t
    · subst hat
      rw [if_pos (by simp [tripleOf]), ih hnd2, if_neg ha,
        if_pos (.head _)]
    · rw [if_neg (by simp [tripleOf, hat]), ih hnd2]
      by_cases htas : t ∈ as
      · rw [if_pos htas, if_pos (.tail _ htas)]
      · rw [if_neg htas, if_neg (by
          intro hc
          rcases List.mem_cons.mp hc with h | h
          · exact hat h.symm
          · exact htas h)]

/-- A table whose scores are all numeric has no string scores in any
group. -/
theorem tripleStrScores_nil (rows : List Row) (t : String × String × String)
    (hnum : ∀ r ∈ rows, ∃ q : ℚ, r.score = .num q) :
    tripleStrScores rows t = [] := by
  rw [tripleStrScores]
  refine List.filterMap_eq_nil_iff.mpr (fun r hr => ?_)
  obtain ⟨q, hq⟩ := hnum r (List.mem_of_mem_filter hr)
  rw [hq]

/-- A table whose scores are all numeric has no group mixing string and
numeric scores. -/
theorem hasMixedGroup_eq_false (rows : List Row)
    (hnum : ∀ r ∈ rows, ∃ q : ℚ, r.score = .num q) :
    hasMixedGroup rows = false := by
  simp only [hasMixedGroup, List.any_eq_false]
  intro r hr
  rw [tripleStrScores_nil rows (tripleOf r) hnum]
  simp

/-- Collapsing a table whose scores are all numeric yields a numeric
score column (group maxima are numbers or NaN). -/
theorem collapse_numeric (rows : List Row)
    (hnum : ∀ r ∈ rows, ∃ q : ℚ, r.score = .num q) :
    isNumericCol (collapseDuplicates rows) = true := by
  rw [isNumericCol, collapseDuplicates, List.all_eq_true]
  intro r hr
  obtain ⟨t, ht, rfl⟩ := List.mem_map.mp hr
  rw [maxScoreCell, tripleStrScores_nil rows t hnum]
  cases tripleScores rows t <;> simp

/-- By contrast, a duplicated record set whose scores did not coerce to
numbers does fail: the collapse keeps the string maximum and the final
dtype check raises ValueError, as in the source. -/
theorem validate_string_duplicates_error :
    validate_dataframe_post_formatting (DF.mk requiredCols
      [⟨"m1", "s1", .str "abc", "src", []⟩,
       ⟨"m1", "s1", .str "xyz", "src", []⟩]) =
      .error (.valueError "score must be numeric") := by
  decide

/-- C9: when the formatted record set has a numeric score column and
contains duplicate (model, scenario, source) rows, post-formatting
validation does not raise: it returns successfully with the warning flag
set, and per key exactly one row survives, carrying the group's maximum
score.  (The numeric hypothesis matches the claim's scope: a non-numeric
score column fails validation with or without duplicates.) -/
theorem c9_duplicate_collapse (d : DF)
    (hcols : sortStr ((d.cols.filter (fun c => c ≠ "Unnamed: 0")).filter
      (fun c => c ≠ "tag")) = sortStr requiredCols)
    (hdup : hasDuplicates d.rows = true)
    (hnum : ∀ r ∈ d.rows, ∃ q : ℚ, r.score = .num q) :
    validate_dataframe_post_formatting d =
      .ok (⟨["model", "scenario", "source", "score"],
        collapseDuplicates d.rows⟩, true) ∧
    ∀ t : String × String × String,
      (t ∈ d.rows.map tripleOf →
        (collapseDuplicates d.rows).filter (fun r => tripleOf r = t) =
          [⟨t.1, t.2.1, maxScoreCell d.rows t, t.2.2, []⟩]) ∧
      (t ∉ d.rows.map tripleOf →
        (collapseDuplicates d.rows).filter (fun r => tripleOf r = t) =
          []) ∧
      (∀ q ∈ tripleScores d.rows t, q ≤ listMax (tripleScores d.rows t)) ∧
      (tripleScores d.rows t ≠ [] →
        maxScoreCell d.rows t = .num (listMax (tripleScores d.rows t))) := by
  constructor
  · simp only [validate_dataframe_post_formatting]
    rw [if_neg (fun h => h hcols), hdup]
    simp [hasMixedGroup_eq_false d.rows hnum, collapse_numeric d.rows hnum]
  · intro t
    have hperm := sortTriples_perm (uniqueKeep (d.rows.map tripleOf))
    have hnd : (sortTriples (uniqueKeep (d.rows.map tripleOf))).Nodup :=
      (hperm.nodup_iff).mpr (uniqueKeep_nodup _)
    have hmem : t ∈ sortTriples (uniqueKeep (d.rows.map tripleOf)) ↔
        t ∈ d.rows.map tripleOf := by
      rw [hperm.mem_iff, mem_uniqueKeep]
    refine ⟨?_, ?_, ?_, ?_⟩
    · intro ht
      rw [collapseDuplicates, filter_map_mk_by_key d.rows _ hnd t,
        if_pos (hmem.mpr ht)]
    · intro ht
      rw [collapseDuplicates, filter_map_mk_by_key d.rows _ hnd t,
        if_neg (fun hc => ht (hmem.mp hc))]
    · intro q hq
      exact le_listMax _ q hq
    · intro hne
      rw [maxScoreCell, tripleStrScores_nil d.rows t hnum]
      match hts : tripleScores d.rows t with
      | [] => exact absurd hts hne
      | q :: qs => rfl

/-- C9 (witness): the theorem applied to a numeric table with one
duplicated (model, scenario, source) key carrying scores 1 and 2. -/
theorem c9_witness :
    (sortStr ((((DF.mk requiredCols
      [⟨"m1", "s1", .num 1, "src", []⟩, ⟨"m1", "s1", .num 2, "src", []⟩]).cols.filter
        (fun c => c ≠ "Unnamed: 0")).filter (fun c => c ≠ "tag"))) =
      sortStr requiredCols) ∧
    (hasDuplicates (DF.mk requiredCols
      [⟨"m1", "s1", .num 1, "src", []⟩,
       ⟨"m1", "s1", .num 2, "src", []⟩]).rows = true) ∧
    (∀ r ∈ (DF.mk requiredCols
      [⟨"m1", "s1", .num 1, "src", []⟩,
       ⟨"m1", "s1", .num 2, "src", []⟩]).rows, ∃ q : ℚ, r.score = .num q) ∧
    validate_dataframe_post_formatting (DF.mk requiredCols
      [⟨"m1", "s1", .num 1, "src", []⟩, ⟨"m1", "s1", .num 2, "src", []⟩]) =
      .ok (⟨["model", "scenario", "source", "score"],
        collapseDuplicates (DF.mk requiredCols
          [⟨"m1", "s1", .num 1, "src", []⟩,
           ⟨"m1", "s1", .num 2, "src", []⟩]).rows⟩, true) := by
  have hnum : ∀ r ∈ (DF.mk requiredCols
      [⟨"m1", "s1", .num 1, "src", []⟩,
       ⟨"m1", "s1", .num 2, "src", []⟩]).rows, ∃ q : ℚ, r.score = .num q := by
    intro r hr
    simp only [List.mem_cons] at hr
    rcases hr with rfl | rfl | h
    · exact ⟨1, rfl⟩
    · exact ⟨2, rfl⟩
    · cases h
  exact ⟨by decide, by decide, hnum,
    (c9_duplicate_collapse _ (by decide) (by decide) hnum).1⟩
